import Mathlib

set_option maxRecDepth 100000

/-!
Shallow embedding of the korones NES emulator core (crates `src/` and `nes/`),
with theorems checking the natural-language specification against the code.

Machine integers are modelled as `Nat` with explicit reductions modulo the
word size at the points where the Rust types wrap or convert.  Stateful code
is modelled by explicit state passing; code whose Rust counterpart can panic
(out-of-bounds `Vec`/array indexing, `unimplemented!`) returns `Option`.
-/

namespace Korones

/-- Modelled from the spec: the `data_unit` module (`Byte`/`Word`) is declared in
`src/lib.rs` but its file is missing from the snapshot.  Per spec 4.1, `Byte` is a
wrapping 8-bit unsigned integer; `u8 n` reduces a `Nat` to the byte range, which is
applied wherever a Rust expression has type `u8`/`Byte` after an operation that can
leave the 8-bit range. -/
def u8 (n : Nat) : Nat := n % 256

/-- Modelled from the spec: 16-bit wrapping reduction for `Word`/`u16` values
(spec 4.1, wrapping 16-bit unsigned semantics). -/
def u16 (n : Nat) : Nat := n % 65536

/-- Modelled from the spec: 32-bit wrapping reduction, for Rust `u32` counters
(for example `length_counter: u32` with `wrapping_add`). -/
def u32 (n : Nat) : Nat := n % 4294967296

/-- Modelled from the spec: 128-bit wrapping reduction for the CPU `cycles: u128`
counter (spec 3: wrap semantics allowed). -/
def u128 (n : Nat) : Nat := n % 340282366920938463463374607431768211456

/-- Modelled from the spec: `nth(i)` bit selection returning 0 or 1 (spec 4.1:
bit-nth selection with `nth(i)` returning 0 or 1). -/
def nth (v i : Nat) : Nat := (v >>> i) % 2

/-- The `bitflags` `contains` test: `(self.bits & other.bits) == other.bits`. -/
def bitsContain (bits flag : Nat) : Bool := bits &&& flag == flag

/-- The `bitflags` `insert`: `self.bits |= other.bits`. -/
def bitsInsert (bits flag : Nat) : Nat := bits ||| flag

/-- The `bitflags` `remove` on a `u8`-backed set: `self.bits &= !other.bits`. -/
def bitsRemove (bits flag : Nat) : Nat := bits &&& (255 ^^^ (flag % 256))

/-! ## Standard controller (`src/src/controller.rs`) -/

/-- `Button::A.bits()` from the `bitflags` in controller.rs (`A = 1 << 0`). -/
def buttonA : Nat := 1 <<< 0

/-- `StandardController` state from controller.rs. -/
structure StandardController where
  state : Nat
  current : Nat
  strobe : Bool
  deriving Repr, DecidableEq

/-- `StandardController::default()`: all fields zeroed. -/
def StandardController.default : StandardController :=
  { state := 0, current := 0, strobe := false }

/-- `StandardController::write`: `self.strobe = value.nth(0) == 1; self.current = 1.into();`. -/
def StandardController.write (c : StandardController) (value : Nat) : StandardController :=
  { c with strobe := nth value 0 == 1, current := 1 }

/-- `StandardController::read`.  In the strobe branch the source computes
`0x40u8 & self.state.nth(Button::A.bits())`; in the other branch it shifts
`current` (a wrapping `Byte`) and returns `0x40 | (0 < input)`. -/
def StandardController.read (c : StandardController) : Nat × StandardController :=
  if c.strobe then
    (0x40 &&& nth c.state buttonA, c)
  else
    let input := c.state &&& c.current
    ((0x40 ||| (if 0 < input then 1 else 0)), { c with current := u8 (c.current <<< 1) })

/-- `StandardController::update`: `self.state = state;`. -/
def StandardController.update (c : StandardController) (state : Nat) : StandardController :=
  { c with state := state }

/-- The two `Controller` trait implementations provided by controller.rs
(`Empty` and `StandardController`); `Nes` stores controllers behind
`Box<dyn Controller>`. -/
inductive ControllerImpl where
  | empty : ControllerImpl
  | standard : StandardController → ControllerImpl
  deriving Repr, DecidableEq

/-- Dispatch of `Controller::read`; `Empty::read` returns `Default::default()`. -/
def ControllerImpl.read : ControllerImpl → Nat × ControllerImpl
  | .empty => (0, .empty)
  | .standard c =>
      let r := c.read
      (r.fst, .standard r.snd)

/-- Dispatch of `Controller::write`; `Empty::write` is a no-op. -/
def ControllerImpl.write : ControllerImpl → Nat → ControllerImpl
  | .empty, _ => .empty
  | .standard c, v => .standard (c.write v)

/-! ## Mapper 0 (`nes/src/mapper/mapper_0.rs`)

The `nes` crate's NROM mapper.  ROM banks are modelled as a length plus a
contents function; a read is `none` exactly when the Rust `Vec` indexing
would be out of bounds and panic. -/

/-- `Mapper0` as built by `Mapper0::new`: `mirrored = rom.prg_rom.len() == 0x4000`. -/
structure Mapper0 where
  chr_rom_len : Nat
  chr_rom : Nat → Nat
  prg_rom_len : Nat
  prg_rom : Nat → Nat
  deriving Inhabited

/-- The `mirrored` flag computed in `Mapper0::new`. -/
def Mapper0.mirrored (m : Mapper0) : Bool := m.prg_rom_len == 0x4000

/-- `Mapper0::prg_addr`: `if mirrored { addr.wrapping_rem(0x4000) } else { addr.wrapping_sub(0x4000) }`
(`u16` arithmetic). -/
def Mapper0.prg_addr (m : Mapper0) (addr : Nat) : Nat :=
  if m.mirrored then addr % 0x4000 else u16 (addr + 0x10000 - 0x4000)

/-- `Mapper0::read` (`impl Mapper for Mapper0`); `none` models the panic of an
out-of-bounds `Vec` index. -/
def Mapper0.read (m : Mapper0) (addr : Nat) : Option Nat :=
  if addr ≤ 0x1FFF then
    if addr < m.chr_rom_len then some (u8 (m.chr_rom addr)) else none
  else if 0x8000 ≤ addr ∧ addr ≤ 0xFFFF then
    let i := m.prg_addr addr
    if i < m.prg_rom_len then some (u8 (m.prg_rom i)) else none
  else
    some 0

/-! ## APU (`src/src/apu.rs`)

The audio buffer sink (`Box<dyn AudioBuffer>`) is a host-side collaborator
(spec 1, out of scope) and carries no state observed by any register; it is
omitted from the state record. -/

/-- `LENGTH_TABLE` from apu.rs. -/
def LENGTH_TABLE : List Nat :=
  [10, 254, 20, 2, 40, 4, 80, 6, 160, 8, 60, 10, 14, 12, 26, 14,
   12, 16, 24, 18, 48, 20, 96, 22, 192, 24, 72, 26, 16, 28, 32, 30]

/-- `CarryMode` from apu.rs (sweep negation style of the two pulse channels). -/
inductive CarryMode where
  | onesComplement : CarryMode
  | twosComplement : CarryMode
  deriving Repr, DecidableEq

/-- `Pulse` channel state from apu.rs.  `timer_sequencer` is an `i32` in the
source but is only ever assigned values in `[0, 8)` by the embedded operations. -/
structure Pulse where
  volume : Nat
  sweep : Nat
  low : Nat
  high : Nat
  length_counter : Nat
  enabled : Bool
  timer_counter : Nat
  timer_sequencer : Nat
  timer_period : Nat
  envelope_counter : Nat
  envelope_decay_level_counter : Nat
  envelope_start : Bool
  sweep_counter : Nat
  sweep_reload : Bool
  carry_mode : CarryMode
  deriving Repr, DecidableEq

/-- `Pulse::default()` with a given carry mode (`channel_1`/`channel_2`). -/
def Pulse.mk0 (cm : CarryMode) : Pulse :=
  { volume := 0, sweep := 0, low := 0, high := 0, length_counter := 0,
    enabled := false, timer_counter := 0, timer_sequencer := 0, timer_period := 0,
    envelope_counter := 0, envelope_decay_level_counter := 0, envelope_start := false,
    sweep_counter := 0, sweep_reload := false, carry_mode := cm }

/-- `Pulse::timer_reload`: `(low as u16) | ((high as u16) << 8)`. -/
def Pulse.timer_reload (p : Pulse) : Nat := p.low ||| (p.high <<< 8)

/-- `Pulse::length_counter_load`: `(high & 0b11111000) >> 3`. -/
def Pulse.length_counter_load (p : Pulse) : Nat := (p.high &&& 0b11111000) >>> 3

/-- `Pulse::length_counter_halt`: `volume.nth(5) == 1`. -/
def Pulse.length_counter_halt (p : Pulse) : Bool := nth p.volume 5 == 1

/-- `Pulse::write` (registers `$4000..=$4003`; any other address is a no-op,
including the `$4004..=$4007` addresses the `Apu` passes through for pulse 2). -/
def Pulse.write (p : Pulse) (addr value : Nat) : Pulse :=
  if addr = 0x4000 then { p with volume := value }
  else if addr = 0x4001 then { p with sweep := value, sweep_reload := true }
  else if addr = 0x4002 then
    let p := { p with low := value }
    { p with timer_period := p.timer_reload }
  else if addr = 0x4003 then
    let p := { p with high := value }
    let p := if p.enabled then
        { p with length_counter := LENGTH_TABLE.getD p.length_counter_load 0 }
      else p
    { p with timer_period := p.timer_reload, timer_sequencer := 0, envelope_start := true }
  else p

/-- `Pulse::set_enabled`. -/
def Pulse.set_enabled (p : Pulse) (v : Bool) : Pulse :=
  let p := { p with enabled := v }
  if v then p else { p with length_counter := 0 }

/-- `Pulse::clock_length_counter`: the source increments
(`length_counter.wrapping_add(1)` on a `u32`) while the counter is nonzero and
the halt flag is clear. -/
def Pulse.clock_length_counter (p : Pulse) : Pulse :=
  if 0 < p.length_counter ∧ ¬p.length_counter_halt then
    { p with length_counter := u32 (p.length_counter + 1) }
  else p

/-- `Triangle` channel state from apu.rs. -/
structure Triangle where
  linear_counter_setup : Nat
  low : Nat
  high : Nat
  linear_counter_reload_flag : Bool
  timer_counter : Nat
  sequencer : Nat
  linear_counter : Nat
  length_counter : Nat
  enabled : Bool
  deriving Repr, DecidableEq

/-- `Triangle::new()` (all defaults). -/
def Triangle.mk0 : Triangle :=
  { linear_counter_setup := 0, low := 0, high := 0, linear_counter_reload_flag := false,
    timer_counter := 0, sequencer := 0, linear_counter := 0, length_counter := 0,
    enabled := false }

/-- `Triangle::length_counter_load`. -/
def Triangle.length_counter_load (t : Triangle) : Nat := (t.high &&& 0b11111000) >>> 3

/-- `Triangle::write` (registers `$4008`, `$400A`, `$400B`). -/
def Triangle.write (t : Triangle) (addr value : Nat) : Triangle :=
  if addr = 0x4008 then { t with linear_counter_setup := value }
  else if addr = 0x400A then { t with low := value }
  else if addr = 0x400B then
    let t := { t with high := value, linear_counter_reload_flag := true }
    if t.enabled then
      { t with length_counter := LENGTH_TABLE.getD t.length_counter_load 0 }
    else t
  else t

/-- `Triangle::set_enabled`. -/
def Triangle.set_enabled (t : Triangle) (v : Bool) : Triangle :=
  let t := { t with enabled := v }
  if v then t else { t with length_counter := 0 }

/-- `Noise` channel state from apu.rs. -/
structure Noise where
  envelope : Nat
  period : Nat
  envelope_counter : Nat
  envelope_decay_level_counter : Nat
  envelope_start : Bool
  shift_register : Nat
  length_counter : Nat
  timer_counter : Nat
  timer_period : Nat
  enabled : Bool
  deriving Repr, DecidableEq

/-- `Noise::new()`: `shift_register = 1`, everything else default. -/
def Noise.mk0 : Noise :=
  { envelope := 0, period := 0, envelope_counter := 0, envelope_decay_level_counter := 0,
    envelope_start := false, shift_register := 1, length_counter := 0,
    timer_counter := 0, timer_period := 0, enabled := false }

/-- `NOISE_TIMER_PERIOD_TABLE` from apu.rs. -/
def NOISE_TIMER_PERIOD_TABLE : List Nat :=
  [4, 8, 16, 32, 64, 96, 128, 160, 202, 254, 380, 508, 762, 1016, 2034, 4068]

/-- `Noise::write`.  In the `$400F` arm the source indexes the length table with
`value & (0b11111000 >> 3)` (precedence: the shift binds the literal), that is
`value & 0b11111`. -/
def Noise.write (n : Noise) (addr value : Nat) : Noise :=
  if addr = 0x400C then { n with envelope := value }
  else if addr = 0x400E then
    let n := { n with period := value }
    { n with timer_period := NOISE_TIMER_PERIOD_TABLE.getD (n.period &&& 0b1111) 0 }
  else if addr = 0x400F then
    if n.enabled then
      { n with length_counter := LENGTH_TABLE.getD (value &&& (0b11111000 >>> 3)) 0 }
    else n
  else n

/-- `Noise::set_enabled`. -/
def Noise.set_enabled (n : Noise) (v : Bool) : Noise :=
  let n := { n with enabled := v }
  if v then n else { n with length_counter := 0 }

/-- `DMC` channel state from apu.rs. -/
structure DMC where
  flags : Nat
  direct : Nat
  address : Nat
  length : Nat
  timer_counter : Nat
  bits_remaining_counter : Nat
  enabled : Bool
  sample_buffer : Nat
  address_counter : Nat
  bytes_remaining_counter : Nat
  output_level : Nat
  silence : Bool
  sample_buffer_empty : Bool
  shift_register : Nat
  interrupted : Bool
  deriving Repr, DecidableEq

/-- `DMC::new()` (all defaults). -/
def DMC.mk0 : DMC :=
  { flags := 0, direct := 0, address := 0, length := 0, timer_counter := 0,
    bits_remaining_counter := 0, enabled := false, sample_buffer := 0,
    address_counter := 0, bytes_remaining_counter := 0, output_level := 0,
    silence := false, sample_buffer_empty := false, shift_register := 0,
    interrupted := false }

/-- `DMC::direct_load`: `direct & 0b011111111`. -/
def DMC.direct_load (d : DMC) : Nat := d.direct &&& 0b011111111

/-- `DMC::write` (registers `$4010..=$4013`). -/
def DMC.write (d : DMC) (addr value : Nat) : DMC :=
  if addr = 0x4010 then { d with flags := value }
  else if addr = 0x4011 then
    let d := { d with direct := value }
    { d with output_level := d.direct_load }
  else if addr = 0x4012 then { d with address := value }
  else if addr = 0x4013 then { d with length := value }
  else d

/-- `DMC::set_enabled`. -/
def DMC.set_enabled (d : DMC) (v : Bool) : DMC := { d with enabled := v }

/-- `Apu` state from apu.rs (minus the host audio sink, see above). -/
structure Apu where
  sampling_rate : Nat
  frame_period : Nat
  pulse1 : Pulse
  pulse2 : Pulse
  triangle : Triangle
  noise : Noise
  dmc : DMC
  cycles : Nat
  frame_counter_control : Nat
  frame_sequence_step : Nat
  frame_interrupted : Bool
  deriving Repr, DecidableEq

/-- `Apu::new`. -/
def Apu.new (sampling_rate frame_period : Nat) : Apu :=
  { sampling_rate := sampling_rate, frame_period := frame_period,
    pulse1 := Pulse.mk0 .onesComplement, pulse2 := Pulse.mk0 .twosComplement,
    triangle := Triangle.mk0, noise := Noise.mk0, dmc := DMC.mk0,
    cycles := 0, frame_counter_control := 0, frame_sequence_step := 0,
    frame_interrupted := false }

/-- `Apu::frame_interrupt_inhibit`: `frame_counter_control.nth(6) == 1`. -/
def Apu.frame_interrupt_inhibit (a : Apu) : Bool := nth a.frame_counter_control 6 == 1

/-- `Apu::read_status`: builds the `$4015` status byte and clears the
frame-interrupt latch. -/
def Apu.read_status (a : Apu) : Nat × Apu :=
  let v := 0
  let v := if a.dmc.interrupted then v ||| 0x80 else v
  let v := if a.frame_interrupted ∧ ¬a.frame_interrupt_inhibit then v ||| 0x40 else v
  let v := if 0 < a.dmc.bytes_remaining_counter then v ||| 0x20 else v
  let v := if 0 < a.noise.length_counter then v ||| 0x08 else v
  let v := if 0 < a.triangle.length_counter then v ||| 0x04 else v
  let v := if 0 < a.pulse2.length_counter then v ||| 0x02 else v
  let v := if 0 < a.pulse1.length_counter then v ||| 0x01 else v
  (v, { a with frame_interrupted := false })

/-- `Apu::write`: register dispatch for `$4000..=$4017`. -/
def Apu.write (a : Apu) (addr value : Nat) : Apu :=
  if 0x4000 ≤ addr ∧ addr ≤ 0x4003 then { a with pulse1 := a.pulse1.write addr value }
  else if 0x4004 ≤ addr ∧ addr ≤ 0x4007 then { a with pulse2 := a.pulse2.write addr value }
  else if 0x4008 ≤ addr ∧ addr ≤ 0x400B then { a with triangle := a.triangle.write addr value }
  else if 0x400C ≤ addr ∧ addr ≤ 0x400F then { a with noise := a.noise.write addr value }
  else if 0x4010 ≤ addr ∧ addr ≤ 0x4013 then { a with dmc := a.dmc.write addr value }
  else if addr = 0x4015 then
    { a with pulse1 := a.pulse1.set_enabled (nth value 0 == 1),
             pulse2 := a.pulse2.set_enabled (nth value 1 == 1),
             triangle := a.triangle.set_enabled (nth value 2 == 1),
             noise := a.noise.set_enabled (nth value 3 == 1),
             dmc := a.dmc.set_enabled (nth value 4 == 1) }
  else if addr = 0x4017 then { a with frame_counter_control := value }
  else a

/-! ## PPU data model (`src/src/ppu.rs`) -/

/-- CPU status flag `I` (`Status::I = 1 << 2` in cpu.rs). -/
def P_I : Nat := 1 <<< 2

/-- CPU status flag `R` (`Status::R = 1 << 5`). -/
def P_R : Nat := 1 <<< 5

/-- CPU status flag `B` (`Status::B = 1 << 4`). -/
def P_B : Nat := 1 <<< 4

/-- `Status::INTERRUPTED_B = 0b100000`. -/
def P_INTERRUPTED_B : Nat := 0b100000

/-- `Status::OPERATED_B = 0b110000`. -/
def P_OPERATED_B : Nat := 0b110000

/-- Interrupt latch bit `Interrupt::RESET = 1 << 3` (interrupt.rs). -/
def I_RESET : Nat := 1 <<< 3

/-- Interrupt latch bit `Interrupt::NMI = 1 << 2`. -/
def I_NMI : Nat := 1 <<< 2

/-- Interrupt latch bit `Interrupt::IRQ = 1 << 1`. -/
def I_IRQ : Nat := 1 <<< 1

/-- Interrupt latch bit `Interrupt::BRK = 1 << 0`. -/
def I_BRK : Nat := 1 <<< 0

/-- PPU `Controller::NMI = 1 << 7`. -/
def CTRL_NMI : Nat := 1 <<< 7

/-- PPU `Mask::RENDER_ENABLED = SPRITE.bits | BG.bits = 0b11000`. -/
def MASK_RENDER_ENABLED : Nat := (1 <<< 4) ||| (1 <<< 3)

/-- PPU `Status::VBLANK = 1 << 7`. -/
def STATUS_VBLANK : Nat := 1 <<< 7

/-- `MAX_DOT` from ppu.rs. -/
def MAX_DOT : Nat := 340

/-- `MAX_LINE` from ppu.rs. -/
def MAX_LINE : Nat := 261

/-- `Scan` from ppu.rs: `dot: u16`, `line: i16`.  The embedded operations only
ever produce line values in `[0, 262)`, so `line` is carried as a `Nat`. -/
structure Scan where
  dot : Nat
  line : Nat
  deriving Repr, DecidableEq

/-- `Scan::clear`. -/
def Scan.clear (_s : Scan) : Scan := { dot := 0, line := 0 }

/-- `Scan::skip`: `self.dot += 1`. -/
def Scan.skip (s : Scan) : Scan := { s with dot := s.dot + 1 }

/-- `Scan::next`: advance one dot, rolling over lines; the returned flag is
true when the frame ended (`MAX_LINE < line`). -/
def Scan.next (s : Scan) : Scan × Bool :=
  let dot := u16 (s.dot + 1)
  if MAX_DOT ≤ dot then
    let dot := dot % MAX_DOT
    let line := s.line + 1
    if MAX_LINE < line then ({ dot := dot, line := 0 }, true)
    else ({ dot := dot, line := line }, false)
  else ({ s with dot := dot }, false)

/-- Background `Pattern` shift register pair from ppu.rs. -/
structure Pattern where
  low : Nat
  high : Nat
  deriving Repr, DecidableEq

/-- `PatternAttr` from ppu.rs. -/
structure PatternAttr where
  low : Nat
  high : Nat
  low_latch : Bool
  high_latch : Bool
  deriving Repr, DecidableEq

/-- On-line sprite slot `Spr` from ppu.rs (`attr` carried as its `u8` bits). -/
structure Spr where
  y : Nat
  tile_index : Nat
  attr : Nat
  x : Nat
  deriving Repr, DecidableEq

/-- `Mirroring` from rom.rs (default is `Vertical`). -/
inductive Mirroring where
  | vertical : Mirroring
  | horizontal : Mirroring
  deriving Repr, DecidableEq

/-- `Ppu` state from ppu.rs.  `sprites: [Spr; 8]` is modelled as a function.
ppu.rs keeps `scan` inside `Ppu` while nes.rs reads `self.ppu.frames`
(the snapshot is mid-refactor between ppu.rs and scanline.rs, whose `Scan`
carries `frames`); both are carried here. -/
structure Ppu where
  ctrl : Nat
  mask : Nat
  status : Nat
  oam_address : Nat
  fine_x : Nat
  v : Nat
  t : Nat
  data : Nat
  write_toggle : Bool
  internal_data_bus : Nat
  bg : Pattern
  nt_latch : Nat
  at_latch : Nat
  bg_shift : Pattern
  at_shift : PatternAttr
  sprites : Nat → Spr
  sprite_zero_on_line : Bool
  mirroring : Mirroring
  scan : Scan
  frames : Nat

/-- `Ppu::default()`. -/
def Ppu.mk0 : Ppu :=
  { ctrl := 0, mask := 0, status := 0, oam_address := 0, fine_x := 0, v := 0, t := 0,
    data := 0, write_toggle := false, internal_data_bus := 0,
    bg := { low := 0, high := 0 }, nt_latch := 0, at_latch := 0,
    bg_shift := { low := 0, high := 0 },
    at_shift := { low := 0, high := 0, low_latch := false, high_latch := false },
    sprites := fun _ => { y := 0, tile_index := 0, attr := 0, x := 0 },
    sprite_zero_on_line := false, mirroring := .vertical,
    scan := { dot := 0, line := 0 }, frames := 0 }

/-- `Oam` from ppu.rs: `primary: [u8; 256]`, `secondary: [u8; 32]`, both
modelled as functions. -/
structure Oam where
  primary : Nat → Nat
  secondary : Nat → Nat

/-- `Cpu` register file from cpu.rs (`p` carried as its `u8` bits). -/
structure Cpu where
  a : Nat
  x : Nat
  y : Nat
  s : Nat
  p : Nat
  pc : Nat
  cycles : Nat

/-- `Cpu::interrupted`: `self.p.contains(Status::I)`. -/
def Cpu.interrupted (c : Cpu) : Bool := bitsContain c.p P_I

/-- The `Nes` machine state from nes.rs.  `Box<dyn Mapper>` is modelled by its
read function (`mapperRead`); the only mapper implementation present in this
crate's snapshot, `MapperDefault` in rom.rs, reads 0 and ignores writes, so
mapper writes are embedded as no-ops.  The two frame buffers hold pixels only;
they are represented by `buffer_index` alone since no embedded operation reads
pixel data back. -/
structure NesState where
  cpu : Cpu
  wram : Nat → Nat
  interrupt : Nat
  ppu : Ppu
  oam : Oam
  name_table : Nat → Nat
  pallete_ram_idx : Nat → Nat
  apu : Apu
  mapperRead : Nat → Nat
  controller_1 : ControllerImpl
  controller_2 : ControllerImpl
  buffer_index : Nat

/-- `Nes::default()`: zeroed CPU and memories, `MapperDefault`, `Empty`
controllers, `Apu::new(0, 0)`. -/
def NesState.mk0 : NesState :=
  { cpu := { a := 0, x := 0, y := 0, s := 0, p := 0, pc := 0, cycles := 0 },
    wram := fun _ => 0, interrupt := 0, ppu := Ppu.mk0,
    oam := { primary := fun _ => 0, secondary := fun _ => 0 },
    name_table := fun _ => 0, pallete_ram_idx := fun _ => 0,
    apu := Apu.new 0 0, mapperRead := fun _ => 0,
    controller_1 := .empty, controller_2 := .empty, buffer_index := 0 }

/-- Helper: the ubiquitous `self.cpu.cycles += k` (`u128` wrapping). -/
def addCycles (nes : NesState) (k : Nat) : NesState :=
  { nes with cpu := { nes.cpu with cycles := u128 (nes.cpu.cycles + k) } }

/-! ## PPU memory map and registers (`src/src/ppu.rs`) -/

/-- `to_name_table_addr` from ppu.rs (`0x0800u16.wrapping_sub(base)` in the
horizontal branch is `u16` wrapping subtraction). -/
def to_name_table_addr (base : Nat) (m : Mirroring) : Nat :=
  match m with
  | .vertical => base % 0x0800
  | .horizontal =>
      if 0x2000 ≤ base then (u16 (0x0800 + 0x10000 - u16 base)) % 0x0400
      else base % 0x0400

/-- `to_pallete_addr` from ppu.rs: fold into 32 bytes, sending every fourth
entry to the sprite bank (`addr | 0x10`). -/
def to_pallete_addr (base : Nat) : Nat :=
  let addr := base % 32
  if addr % 4 = 0 then addr ||| 0x10 else addr

/-- `Nes::read_ppu` (the PPU-visible memory map). -/
def NesState.read_ppu (nes : NesState) (addr : Nat) : Nat :=
  let a := u16 addr
  if a ≤ 0x1FFF then u8 (nes.mapperRead a)
  else if a ≤ 0x2FFF then u8 (nes.name_table (to_name_table_addr a nes.ppu.mirroring))
  else if a ≤ 0x3EFF then
    u8 (nes.name_table (to_name_table_addr (u16 (a + 0x10000 - 0x1000)) nes.ppu.mirroring))
  else if a ≤ 0x3FFF then u8 (nes.pallete_ram_idx (to_pallete_addr a))
  else 0

/-- `Nes::write_ppu`; the CHR arm is `unimplemented!("mapper")` in the source,
modelled as `none`. -/
def NesState.write_ppu (nes : NesState) (addr value : Nat) : Option NesState :=
  let a := u16 addr
  let v := u8 value
  if a ≤ 0x1FFF then none
  else if a ≤ 0x2FFF then
    let nt := Function.update nes.name_table (to_name_table_addr a nes.ppu.mirroring) v
    some { nes with name_table := nt }
  else if a ≤ 0x3EFF then
    let i := to_name_table_addr (u16 (a + 0x10000 - 0x1000)) nes.ppu.mirroring
    some { nes with name_table := Function.update nes.name_table i v }
  else if a ≤ 0x3FFF then
    let pal := Function.update nes.pallete_ram_idx (to_pallete_addr a) v
    some { nes with pallete_ram_idx := pal }
  else some nes

/-- `Ppu::read_status` (the `$2002` side effect): returns the status bits,
clears VBLANK and the write toggle. -/
def Ppu.read_status (p : Ppu) : Nat × Ppu :=
  (u8 p.status, { p with status := bitsRemove p.status STATUS_VBLANK, write_toggle := false })

/-- `Ppu::incr_v`: `v += 32` or `1` per `Controller::VRAM_ADDR_INCR` (bit 2). -/
def Ppu.incr_v (p : Ppu) : Ppu :=
  { p with v := u16 (p.v + (if bitsContain p.ctrl (1 <<< 2) then 32 else 1)) }

/-- `Ppu::write_controller`.  `Controller::from_bits_truncate` keeps only the
declared flag bits `0b11111100`; `name_table_select()` is `bits & 0b11`. -/
def Ppu.write_controller (p : Ppu) (value : Nat) : Ppu :=
  let ctrl := value &&& 0b11111100
  { p with ctrl := ctrl,
           t := (p.t &&& (0xFFFF ^^^ 0b000110000000000)) ||| ((ctrl &&& 0b11) <<< 10) }

/-- `Ppu::write_scroll` (`$2005`, two-write latch). -/
def Ppu.write_scroll (p : Ppu) (position : Nat) : Ppu :=
  let pos := u8 position
  if ¬p.write_toggle then
    { p with t := (p.t &&& (0xFFFF ^^^ 0b000000000011111)) ||| ((pos &&& 0b11111000) >>> 3),
             fine_x := pos &&& 0b111,
             write_toggle := true }
  else
    { p with t := (p.t &&& (0xFFFF ^^^ 0b111001111100000)) |||
                  ((pos &&& 0b111) <<< 12) ||| ((pos &&& 0b11111000) <<< 2),
             write_toggle := false }

/-- `Ppu::write_vram_address` (`$2006`, two-write latch). -/
def Ppu.write_vram_address (p : Ppu) (addr : Nat) : Ppu :=
  let d := u8 addr
  if ¬p.write_toggle then
    { p with t := (p.t &&& (0xFFFF ^^^ 0b011111100000000)) ||| ((d &&& 0b111111) <<< 8),
             write_toggle := true }
  else
    let t := (p.t &&& (0xFFFF ^^^ 0b000000011111111)) ||| d
    { p with t := t, v := t, write_toggle := false }

/-- `Nes::read_ppu_register` from ppu.rs.  A read is `none` exactly when the
`$2004` arm would index `primary` out of bounds.  Every path stores the result
into the PPU internal data bus. -/
def NesState.read_ppu_register (nes : NesState) (addr : Nat) : Option (Nat × NesState) :=
  (if addr = 0x2002 then
    let r := nes.ppu.read_status
    let result := r.fst ||| (nes.ppu.internal_data_bus &&& 0b11111)
    let result :=
      if nes.ppu.scan.line = 241 ∧ nes.ppu.scan.dot < 2 then result &&& (0xFF ^^^ 0x80)
      else result
    some (result, { nes with ppu := r.snd })
  else if addr = 0x2004 then
    if nes.ppu.scan.line < 240 ∧ 1 ≤ nes.ppu.scan.dot ∧ nes.ppu.scan.dot ≤ 64 then
      some (0xFF, nes)
    else if nes.ppu.oam_address < 256 then
      some (u8 (nes.oam.primary nes.ppu.oam_address), nes)
    else none
  else if addr = 0x2007 then
    let rs :=
      if u16 nes.ppu.v ≤ 0x3EFF then
        (nes.ppu.data, { nes with ppu := { nes.ppu with data := nes.read_ppu (u16 nes.ppu.v) } })
      else (nes.read_ppu (u16 nes.ppu.v), nes)
    some (rs.fst, { rs.snd with ppu := rs.snd.ppu.incr_v })
  else
    some (0, nes)).map fun r =>
      (r.fst, { r.snd with ppu := { r.snd.ppu with internal_data_bus := u8 r.fst } })

/-- `Nes::write_ppu_register` from ppu.rs; `none` models the two reachable
panics (`$2004` OAM index out of bounds, `$2007` hitting the
`unimplemented!` CHR write). -/
def NesState.write_ppu_register (nes : NesState) (addr value : Nat) : Option NesState :=
  let v := u8 value
  if addr = 0x2000 then some { nes with ppu := nes.ppu.write_controller v }
  else if addr = 0x2001 then some { nes with ppu := { nes.ppu with mask := v } }
  else if addr = 0x2003 then some { nes with ppu := { nes.ppu with oam_address := v } }
  else if addr = 0x2004 then
    if nes.ppu.oam_address < 256 then
      some { nes with
        oam := { nes.oam with
          primary := Function.update nes.oam.primary nes.ppu.oam_address v },
        ppu := { nes.ppu with oam_address := nes.ppu.oam_address + 1 } }
    else none
  else if addr = 0x2005 then some { nes with ppu := nes.ppu.write_scroll v }
  else if addr = 0x2006 then some { nes with ppu := nes.ppu.write_vram_address v }
  else if addr = 0x2007 then
    (nes.write_ppu (u16 nes.ppu.v) v).map fun nes => { nes with ppu := nes.ppu.incr_v }
  else some nes

/-! ## CPU-visible bus (`src/src/nes.rs` and the `Bus` impl in `src/src/cpu.rs`) -/

/-- `to_ppu_addr` from nes.rs: `0x2000u16.wrapping_add(addr) % 8`. -/
def to_ppu_addr (addr : Nat) : Nat := u16 (0x2000 + addr) % 8

/-- `Nes::read_bus` from nes.rs. -/
def NesState.read_bus (nes : NesState) (addr : Nat) : Option (Nat × NesState) :=
  let a := u16 addr
  if a ≤ 0x1FFF then some (u8 (nes.wram a), nes)
  else if a ≤ 0x3FFF then nes.read_ppu_register (to_ppu_addr a)
  else if (0x4000 ≤ a ∧ a ≤ 0x4013) ∨ a = 0x4015 then
    let r := nes.apu.read_status
    some (r.fst, { nes with apu := r.snd })
  else if a = 0x4016 then
    let r := nes.controller_1.read
    some (r.fst, { nes with controller_1 := r.snd })
  else if a = 0x4017 then
    let r := nes.controller_2.read
    some (r.fst, { nes with controller_2 := r.snd })
  else if 0x4020 ≤ a ∧ a ≤ 0xFFFF then some (u8 (nes.mapperRead a), nes)
  else some (0, nes)

/-- `Nes::write_bus` from nes.rs (the mapper arm is a no-op: see `NesState`). -/
def NesState.write_bus (nes : NesState) (addr value : Nat) : Option NesState :=
  let a := u16 addr
  let v := u8 value
  if a ≤ 0x1FFF then some { nes with wram := Function.update nes.wram a v }
  else if a ≤ 0x3FFF then nes.write_ppu_register (to_ppu_addr a) v
  else if (0x4000 ≤ a ∧ a ≤ 0x4013) ∨ a = 0x4015 then
    some { nes with apu := nes.apu.write a v }
  else if a = 0x4016 then some { nes with controller_1 := nes.controller_1.write v }
  else if a = 0x4017 then
    some { nes with controller_2 := nes.controller_2.write v, apu := nes.apu.write a v }
  else some nes

/-- `<Nes as Bus>::read` from cpu.rs: one cycle, then the bus. -/
def NesState.readCpu (nes : NesState) (addr : Nat) : Option (Nat × NesState) :=
  (addCycles nes 1).read_bus addr

/-- The body of the `for a in start..(start + 0xFF)` OAM-DMA loop in
`<Nes as Bus>::write` (cpu.rs): `k` counts the remaining iterations, `a` is
the current source address. -/
def dmaLoop (k : Nat) (a : Nat) (nes : NesState) : Option NesState :=
  match k with
  | 0 => some nes
  | Nat.succ k =>
      (nes.read_bus a).bind fun r =>
        let nes := addCycles r.snd 1
        (nes.write_bus 0x2004 r.fst).bind fun nes =>
          dmaLoop k (u16 (a + 1)) (addCycles nes 1)

/-- `<Nes as Bus>::write` from cpu.rs, including the `$4014` OAM-DMA special
case (255 loop iterations for `start..(start + 0xFF)`, one dummy cycle, one
more if the cycle counter is then odd, and an early return that skips the
normal single write cycle). -/
def NesState.writeCpu (nes : NesState) (addr value : Nat) : Option NesState :=
  let a := u16 addr
  let v := u8 value
  if a = 0x4014 then
    let start := u16 (v * 0x100)
    (dmaLoop 0xFF start nes).map fun nes =>
      let nes := addCycles nes 1
      if nes.cpu.cycles % 2 = 1 then addCycles nes 1 else nes
  else
    (addCycles nes 1).write_bus a v

/-- `ReadWord::read_word` from bus.rs: little-endian pair of bus reads. -/
def NesState.read_word (nes : NesState) (addr : Nat) : Option (Nat × NesState) :=
  (nes.readCpu addr).bind fun l =>
    (l.snd.readCpu (u16 (addr + 1))).map fun h =>
      (l.fst ||| u16 (h.fst <<< 8), h.snd)

/-! ## Stack (`src/src/cpu.rs`) -/

/-- `Nes::push_stack`: write at `$0100 + S`, then `S -= 1` (wrapping `Byte`). -/
def NesState.push_stack (nes : NesState) (value : Nat) : Option NesState :=
  (nes.writeCpu (u16 (nes.cpu.s + 0x100)) value).map fun nes =>
    { nes with cpu := { nes.cpu with s := u8 (nes.cpu.s + 255) } }

/-- `Nes::push_stack_word`: push high byte, then low byte. -/
def NesState.push_stack_word (nes : NesState) (word : Nat) : Option NesState :=
  let w := u16 word
  (nes.push_stack (u8 (w >>> 8))).bind fun nes => nes.push_stack (w &&& 0xFF)

/-- `Nes::pull_stack`: `S += 1` (wrapping), then read at `$0100 + S`. -/
def NesState.pull_stack (nes : NesState) : Option (Nat × NesState) :=
  let nes := { nes with cpu := { nes.cpu with s := u8 (nes.cpu.s + 1) } }
  nes.readCpu (u16 (nes.cpu.s + 0x100))

/-- `Nes::pull_stack_word`: pull low, pull high, recombine `h << 8 | l`. -/
def NesState.pull_stack_word (nes : NesState) : Option (Nat × NesState) :=
  (nes.pull_stack).bind fun l =>
    (l.snd.pull_stack).map fun h => (u16 (h.fst <<< 8) ||| l.fst, h.snd)

/-! ## Interrupt handling (`src/src/interrupt.rs` and the interrupt module of
`src/src/cpu.rs`) -/

/-- `Interrupt::get`: highest pending of RESET > NMI > IRQ > BRK, else empty. -/
def interrupt_get (i : Nat) : Nat :=
  if bitsContain i I_RESET then I_RESET
  else if bitsContain i I_NMI then I_NMI
  else if bitsContain i I_IRQ then I_IRQ
  else if bitsContain i I_BRK then I_BRK
  else 0

/-- `Nes::reset`: 5 idle cycles, `PC` from `$FFFC`, set `I`, `S -= 3`. -/
def NesState.reset (nes : NesState) : Option NesState :=
  let nes := addCycles nes 5
  (nes.read_word 0xFFFC).map fun r =>
    { r.snd with cpu := { r.snd.cpu with
        pc := r.fst, p := bitsInsert r.snd.cpu.p P_I, s := u8 (r.snd.cpu.s + 253) } }

/-- `Nes::non_markable_interrupt` (NMI): 2 idle cycles, push `PC`, push
`P | INTERRUPTED_B`, set `I`, `PC` from `$FFFA`. -/
def NesState.non_markable_interrupt (nes : NesState) : Option NesState :=
  let nes := addCycles nes 2
  (nes.push_stack_word nes.cpu.pc).bind fun nes =>
    (nes.push_stack (nes.cpu.p ||| P_INTERRUPTED_B)).bind fun nes =>
      let nes := { nes with cpu := { nes.cpu with p := bitsInsert nes.cpu.p P_I } }
      (nes.read_word 0xFFFA).map fun r =>
        { r.snd with cpu := { r.snd.cpu with pc := r.fst } }

/-- `Nes::interrupt_request` (IRQ): as NMI but vector `$FFFE`. -/
def NesState.interrupt_request (nes : NesState) : Option NesState :=
  let nes := addCycles nes 2
  (nes.push_stack_word nes.cpu.pc).bind fun nes =>
    (nes.push_stack (nes.cpu.p ||| P_INTERRUPTED_B)).bind fun nes =>
      let nes := { nes with cpu := { nes.cpu with p := bitsInsert nes.cpu.p P_I } }
      (nes.read_word 0xFFFE).map fun r =>
        { r.snd with cpu := { r.snd.cpu with pc := r.fst } }

/-- `Nes::break_interrupt` (BRK): 2 idle cycles, `PC += 1`, push `PC`, push
`P | INTERRUPTED_B`, set `I`, `PC` from `$FFFE`. -/
def NesState.break_interrupt (nes : NesState) : Option NesState :=
  let nes := addCycles nes 2
  let nes := { nes with cpu := { nes.cpu with pc := u16 (nes.cpu.pc + 1) } }
  (nes.push_stack_word nes.cpu.pc).bind fun nes =>
    (nes.push_stack (nes.cpu.p ||| P_INTERRUPTED_B)).bind fun nes =>
      let nes := { nes with cpu := { nes.cpu with p := bitsInsert nes.cpu.p P_I } }
      (nes.read_word 0xFFFE).map fun r =>
        { r.snd with cpu := { r.snd.cpu with pc := r.fst } }

/-- `u128::MAX`. -/
def U128_MAX : Nat := 340282366920938463463374607431768211455

/-- `handle_interrupt` from interrupt.rs, returning the new state and the
delta of CPU cycles (with the source's wrap-around formula).  In the IRQ and
BRK arms the handler fires only when `cpu.interrupted()` — the `I` flag —
is set. -/
def handle_interrupt (nes : NesState) : Option (NesState × Nat) :=
  let before := nes.cpu.cycles
  let fin : NesState → NesState × Nat := fun nes =>
    (nes, if before ≤ nes.cpu.cycles then nes.cpu.cycles - before
          else U128_MAX - before + nes.cpu.cycles)
  let cur := interrupt_get nes.interrupt
  if cur = I_RESET then
    (nes.reset).map fun nes => fin { nes with interrupt := bitsRemove nes.interrupt cur }
  else if cur = I_NMI then
    (nes.non_markable_interrupt).map fun nes =>
      fin { nes with interrupt := bitsRemove nes.interrupt cur }
  else if cur = I_IRQ then
    if nes.cpu.interrupted then
      (nes.interrupt_request).map fun nes =>
        fin { nes with interrupt := bitsRemove nes.interrupt cur }
    else some (fin nes)
  else if cur = I_BRK then
    if nes.cpu.interrupted then
      (nes.break_interrupt).map fun nes =>
        fin { nes with interrupt := bitsRemove nes.interrupt cur }
    else some (fin nes)
  else some (fin nes)

/-! ## Scheduler (`src/src/nes.rs`) -/

/-- The `for _ in 0..cycles` APU loop of `Nes::step`: the iteration count is
the range taken at loop entry, while the accumulator adds each returned CPU
stall to `cycles`. -/
def apu_steps (apuStep : NesState → NesState × Nat) :
    Nat → NesState → Nat → NesState × Nat
  | 0, nes, cycles => (nes, cycles)
  | Nat.succ k, nes, cycles =>
      let r := apuStep nes
      apu_steps apuStep k r.fst (u128 (cycles + r.snd))

/-- `Nes::step`, parametric in the three subsystem steps it dispatches to
(`cpu::step`, `apu::step`, `ppu::step`): if `cpu.interrupted()` run
`handle_interrupt`, else one CPU instruction; then the APU loop; then
`cycles * 3` PPU dots. -/
def stepWith (cpuStep : NesState → Option (NesState × Nat))
    (apuStep : NesState → NesState × Nat) (ppuStep : NesState → NesState)
    (nes : NesState) : Option NesState :=
  (if nes.cpu.interrupted then handle_interrupt nes else cpuStep nes).map fun r =>
    let ar := apu_steps apuStep r.snd r.fst r.snd
    ppuStep^[u128 (ar.snd * 3)] ar.fst

/-- The `while before == self.ppu.frames` loop of `Nes::step_frame`, with
explicit fuel: `none` means the loop has not exited within `fuel` iterations. -/
def step_frame_go (stepF : NesState → Option NesState) (before : Nat) :
    Nat → NesState → Option NesState
  | 0, _ => none
  | Nat.succ fuel, nes =>
      if before = nes.ppu.frames then (stepF nes).bind (step_frame_go stepF before fuel)
      else some nes

/-- `Nes::step_frame`: record `before = self.ppu.frames`, then step until the
frame counter moves. -/
def step_frame (stepF : NesState → Option NesState) (fuel : Nat) (nes : NesState) :
    Option NesState :=
  step_frame_go stepF nes.ppu.frames fuel nes

/-- The scan-advancing tail of `ppu::step` (ppu.rs lines 301-324): the final
`match (dot, line)` — whose `(_, 261)` arm skips a dot whenever rendering is
enabled and `frames` is even, and whose `(1, 241)` arm raises VBLANK, latches
NMI if enabled and swaps the frame buffers — followed by `scan.next()` and the
frame-count result.  No other statement of `ppu::step` modifies `scan` or the
frame counter (the background/sprite pipelines only read `scan`). -/
def ppu_step_tail (nes : NesState) (scan : Scan) (frames : Nat) :
    NesState × Scan × Nat :=
  let render_enabled := bitsContain nes.ppu.mask MASK_RENDER_ENABLED
  let p : NesState × Scan :=
    if scan.line = 261 then
      (nes, if render_enabled ∧ frames % 2 = 0 then scan.skip else scan)
    else if scan.dot = 1 ∧ scan.line = 241 then
      let nes := { nes with ppu :=
        { nes.ppu with status := bitsInsert nes.ppu.status STATUS_VBLANK } }
      let nes :=
        if bitsContain nes.ppu.ctrl CTRL_NMI then
          { nes with interrupt := bitsInsert nes.interrupt I_NMI }
        else nes
      ({ nes with buffer_index := (nes.buffer_index + 1) % 2 }, scan)
    else (nes, scan)
  let r := p.snd.next
  (p.fst, r.fst, if r.snd then frames + 1 else frames)

/-! ## Stack round-trip vocabulary (for the push/pull claim)

A sequence of CPU stack operations mixes `push_stack` (one byte) and
`push_stack_word` (two bytes); an item records which operation pushed which
value, so a pull sequence can mirror the push sequence in reverse. -/

/-- One pushed stack entry: a byte (`push_stack`) or a word (`push_stack_word`). -/
inductive StackItem where
  | byte (b : Nat) : StackItem
  | word (w : Nat) : StackItem
  deriving Repr, DecidableEq

/-- Bytes occupied on the stack by an item. -/
def StackItem.size : StackItem → Nat
  | .byte _ => 1
  | .word _ => 2

/-- Whether the item must be pulled with `pull_stack_word`. -/
def StackItem.isWord : StackItem → Bool
  | .byte _ => false
  | .word _ => true

/-- Well-formed item: the value fits the Rust argument type (`Byte` / `Word`). -/
def StackItem.wf : StackItem → Prop
  | .byte b => b < 256
  | .word w => w < 65536

instance : DecidablePred StackItem.wf := fun i => by
  cases i <;> simp only [StackItem.wf] <;> infer_instance

/-- Push one item with the corresponding cpu.rs operation. -/
def pushItem (nes : NesState) : StackItem → Option NesState
  | .byte b => nes.push_stack b
  | .word w => nes.push_stack_word w

/-- Push a sequence of items left to right. -/
def pushItems (nes : NesState) (items : List StackItem) : Option NesState :=
  items.foldlM pushItem nes

/-- Pull one item with the operation selected by the kind flag. -/
def pullItem (nes : NesState) (kind : Bool) : Option (StackItem × NesState) :=
  if kind then (nes.pull_stack_word).map fun r => (.word r.fst, r.snd)
  else (nes.pull_stack).map fun r => (.byte r.fst, r.snd)

/-- Pull a sequence of items according to a list of kind flags. -/
def pullItems (nes : NesState) : List Bool → Option (List StackItem × NesState)
  | [] => some ([], nes)
  | k :: ks =>
      (pullItem nes k).bind fun r =>
        (pullItems r.snd ks).map fun rs => (r.fst :: rs.fst, rs.snd)

/-- Total byte footprint of an item sequence. -/
def sizeSum (items : List StackItem) : Nat := (items.map StackItem.size).sum

/-! ## Concrete fixtures used by the closed theorems and witnesses -/

/-- A 16 KiB-PRG NROM cartridge with recognizable PRG contents. -/
def m16 : Mapper0 :=
  { chr_rom_len := 0x2000, chr_rom := fun _ => 0,
    prg_rom_len := 0x4000, prg_rom := fun i => i % 251 }

/-- A 32 KiB-PRG NROM cartridge whose PRG byte records its 16 KiB bank index. -/
def m32 : Mapper0 :=
  { chr_rom_len := 0x2000, chr_rom := fun _ => 0,
    prg_rom_len := 0x8000, prg_rom := fun i => i / 0x4000 }

/-- Machine state for the OAM-DMA scenario of spec 8.4: even CPU cycle count,
recognizable WRAM contents, primary OAM filled with `0xAA`. -/
def nesDma : NesState :=
  { NesState.mk0 with
    wram := fun a => (a + 7) % 256,
    oam := { primary := fun _ => 0xAA, secondary := fun _ => 0 } }

/-- Machine state with rendering enabled (`Mask::SPRITE | Mask::BG`). -/
def nesRender : NesState :=
  { NesState.mk0 with ppu := { Ppu.mk0 with mask := 0b00011000 } }

/-- Machine state with a pending IRQ, `I` set, `S = 0xFD`, and a mapper whose
vector bytes are recognizable. -/
def nesIrq : NesState :=
  { NesState.mk0 with
    interrupt := I_IRQ,
    cpu := { NesState.mk0.cpu with p := P_I, s := 0xFD, pc := 0x1234 },
    mapperRead := fun a => a % 256 }

/-- The stuck post-RESET state: `I` set, interrupt latch empty. -/
def nesStuck : NesState :=
  { NesState.mk0 with cpu := { NesState.mk0.cpu with p := 0x34 } }

/-- The APU after `$4015 <- 0x01` (enable pulse 1) and `$4003 <- 0x00`
(length table index 0). -/
def apuLen : Apu := ((Apu.new 0 0).write 0x4015 1).write 0x4003 0

/-- 257 byte pushes: a 1 followed by 256 zeros (one byte more than the stack
holds). -/
def items257 : List StackItem := .byte 1 :: List.replicate 256 (.byte 0)

/-- Machine with the power-up stack pointer `S = 0xFD`. -/
def nesStack : NesState :=
  { NesState.mk0 with cpu := { NesState.mk0.cpu with s := 0xFD } }

/-! ## Helper lemmas -/

theorem lor_land_self (x f : Nat) : (x ||| f) &&& f = f := by
  apply Nat.eq_of_testBit_eq
  intro i
  rw [Nat.testBit_land, Nat.testBit_lor]
  cases f.testBit i <;> simp

theorem bitsContain_lor_self (x f : Nat) : bitsContain (x ||| f) f = true := by
  simp [bitsContain, lor_land_self]

theorem read_bus_wram (nes : NesState) (a : Nat) (h : a ≤ 0x1FFF) :
    nes.read_bus a = some (u8 (nes.wram a), nes) := by
  have hu : u16 a = a := Nat.mod_eq_of_lt (by omega)
  simp only [NesState.read_bus, hu]
  rw [if_pos h]

theorem read_bus_mapper (nes : NesState) (a : Nat) (h1 : 0x4020 ≤ a) (h2 : a ≤ 0xFFFF) :
    nes.read_bus a = some (u8 (nes.mapperRead a), nes) := by
  have hu : u16 a = a := Nat.mod_eq_of_lt (by omega)
  simp only [NesState.read_bus, hu]
  rw [if_neg (by omega), if_neg (by omega), if_neg (by omega), if_neg (by omega),
    if_neg (by omega), if_pos (by omega)]

theorem write_bus_wram (nes : NesState) (a v : Nat) (h : a ≤ 0x1FFF) :
    nes.write_bus a v = some { nes with wram := Function.update nes.wram a (u8 v) } := by
  have hu : u16 a = a := Nat.mod_eq_of_lt (by omega)
  simp only [NesState.write_bus, hu]
  rw [if_pos h]

theorem readCpu_wram (nes : NesState) (a : Nat) (h : a ≤ 0x1FFF) :
    nes.readCpu a = some (u8 (nes.wram a), addCycles nes 1) := by
  simp only [NesState.readCpu]
  exact read_bus_wram _ _ h

theorem readCpu_mapper (nes : NesState) (a : Nat) (h1 : 0x4020 ≤ a) (h2 : a ≤ 0xFFFF) :
    nes.readCpu a = some (u8 (nes.mapperRead a), addCycles nes 1) := by
  simp only [NesState.readCpu]
  exact read_bus_mapper _ _ h1 h2

theorem push_stack_eq (nes : NesState) (v : Nat) (hs : nes.cpu.s < 256) :
    nes.push_stack v = some { nes with
      cpu := { nes.cpu with s := (nes.cpu.s + 255) % 256,
                            cycles := u128 (nes.cpu.cycles + 1) },
      wram := Function.update nes.wram (nes.cpu.s + 0x100) (v % 256) } := by
  have hu : u16 (nes.cpu.s + 0x100) = nes.cpu.s + 0x100 := Nat.mod_eq_of_lt (by omega)
  simp only [NesState.push_stack, NesState.writeCpu, hu]
  rw [if_neg (by omega)]
  rw [write_bus_wram _ _ _ (by omega)]
  have hmm : ∀ x : Nat, x % 256 % 256 = x % 256 := fun x => Nat.mod_mod_of_dvd x dvd_rfl
  simp [addCycles, u8, u128, hmm]

theorem pull_stack_eq (nes : NesState) :
    nes.pull_stack = some (nes.wram ((nes.cpu.s + 1) % 256 + 0x100) % 256,
      addCycles { nes with cpu := { nes.cpu with s := (nes.cpu.s + 1) % 256 } } 1) := by
  have hu : u16 ((nes.cpu.s + 1) % 256 + 0x100) = (nes.cpu.s + 1) % 256 + 0x100 :=
    Nat.mod_eq_of_lt (by omega)
  simp only [NesState.pull_stack, u8]
  rw [hu, readCpu_wram _ _ (by omega)]
  rfl

/-! ## Claim theorems -/

/-- C4: the claim (on odd frames exactly dot 340 of line 261 is skipped, on
even frames nothing is skipped) fails on the code.  With rendering enabled,
the `(_, 261)` arm of `ppu::step` calls `Scan::skip` at EVERY dot of line 261
of an EVEN frame: from dot 0 of line 261 with `frames = 0` a single step lands
on dot 2 (one dot skipped on an even frame).  On an odd frame nothing is ever
skipped, and since `Scan::next` rolls over at `MAX_DOT = 340`, dot 340 does
not exist: from dot 339 of line 261 with `frames = 1`, one step finishes the
frame directly. -/
theorem ppu_even_frame_skips_dots :
    (ppu_step_tail nesRender { dot := 0, line := 261 } 0).snd = ({ dot := 2, line := 261 }, 0) ∧
    (ppu_step_tail nesRender { dot := 339, line := 261 } 1).snd = ({ dot := 0, line := 0 }, 2) ∧
    (ppu_step_tail nesRender { dot := 338, line := 261 } 0).snd = ({ dot := 0, line := 0 }, 1) := by
  decide

/-- C5: the claim (each length clock decrements, so 10 clocks bring the
counter from 10 to 0 and `$4015` bit 0 then reads 0) fails on the code.
After `$4015 <- 0x01` and `$4003 <- 0x00` the counter is 10 and `$4015`
bit 0 reads 1, as the claim says; but `Pulse::clock_length_counter` uses
`wrapping_add(1)`, so one clock yields 11, ten clocks yield 20, and bit 0
still reads 1. -/
theorem pulse_length_counter_counts_up :
    apuLen.pulse1.length_counter = 10 ∧
    (apuLen.read_status).fst &&& 1 = 1 ∧
    (Pulse.clock_length_counter apuLen.pulse1).length_counter = 11 ∧
    (Pulse.clock_length_counter^[10] apuLen.pulse1).length_counter = 20 ∧
    (({ apuLen with
        pulse1 := Pulse.clock_length_counter^[10] apuLen.pulse1 }).read_status).fst &&& 1 = 1 := by
  decide

/-- C6: the claim (while strobe is 1 every read returns the A button bit with
`0x40` OR'd into the upper bits) fails on the code: the strobe branch computes
`0x40 & state.nth(1)`, which is 0 for every button state, so a strobed read of
a controller with A pressed returns `0x00` instead of `0x41`.  (The
strobe-clear shift path is unaffected.) -/
theorem controller_strobe_read_is_zero :
    (∀ st cur : Nat,
      (StandardController.read { state := st, current := cur, strobe := true }).fst = 0) ∧
    (((StandardController.default.update 1).write 1).read).fst = 0 := by
  constructor
  · intro st cur
    simp only [StandardController.read, if_pos]
    rcases Nat.mod_two_eq_zero_or_one (st >>> 1) with h | h <;>
      simp [nth, buttonA, h]
  · decide

/-- C7: the claim (Mapper 0 reads `prg_rom[(addr - 0x8000) % 0x4000]` for
16 KiB PRG and `prg_rom[addr - 0x8000]` for 32 KiB, never panicking) fails on
the code for 32 KiB PRG: `prg_addr` computes `addr.wrapping_sub(0x4000)`, so
`$8000` reads `prg_rom[0x4000]` (bank 1, not `prg_rom[0]`), and `$C000` indexes
`0x8000`, out of bounds of the 32 KiB `Vec` (a panic, modelled as `none`).
The 16 KiB case agrees with the claim (`addr % 0x4000 = (addr - 0x8000) % 0x4000`). -/
theorem mapper0_32k_reads_wrong_bank :
    m32.read 0x8000 = some 1 ∧ m32.prg_rom 0 = 0 ∧
    m32.read 0xC000 = none ∧
    m16.read 0xC123 = some (m16.prg_rom ((0xC123 - 0x8000) % 0x4000)) := by
  decide

/-- C8: palette aliasing, as the claim states it: in every machine state the
PPU reads of `$3F10/$3F14/$3F18/$3F1C` equal the reads of
`$3F00/$3F04/$3F08/$3F0C` (both members of each pair resolve to the same
palette RAM cell through `to_pallete_addr`), and writing either address of a
pair (a PPU write, which always succeeds on palette addresses) preserves the
aliasing. -/
theorem palette_mirror_aliases (nes : NesState) :
    (nes.read_ppu 0x3F10 = nes.read_ppu 0x3F00) ∧
    (nes.read_ppu 0x3F14 = nes.read_ppu 0x3F04) ∧
    (nes.read_ppu 0x3F18 = nes.read_ppu 0x3F08) ∧
    (nes.read_ppu 0x3F1C = nes.read_ppu 0x3F0C) ∧
    ∀ v : Nat,
      (∃ n, nes.write_ppu 0x3F10 v = some n ∧ n.read_ppu 0x3F10 = n.read_ppu 0x3F00) ∧
      (∃ n, nes.write_ppu 0x3F00 v = some n ∧ n.read_ppu 0x3F10 = n.read_ppu 0x3F00) ∧
      (∃ n, nes.write_ppu 0x3F14 v = some n ∧ n.read_ppu 0x3F14 = n.read_ppu 0x3F04) ∧
      (∃ n, nes.write_ppu 0x3F04 v = some n ∧ n.read_ppu 0x3F14 = n.read_ppu 0x3F04) ∧
      (∃ n, nes.write_ppu 0x3F18 v = some n ∧ n.read_ppu 0x3F18 = n.read_ppu 0x3F08) ∧
      (∃ n, nes.write_ppu 0x3F08 v = some n ∧ n.read_ppu 0x3F18 = n.read_ppu 0x3F08) ∧
      (∃ n, nes.write_ppu 0x3F1C v = some n ∧ n.read_ppu 0x3F1C = n.read_ppu 0x3F0C) ∧
      (∃ n, nes.write_ppu 0x3F0C v = some n ∧ n.read_ppu 0x3F1C = n.read_ppu 0x3F0C) := by
  refine ⟨rfl, rfl, rfl, rfl, fun v => ⟨⟨_, rfl, rfl⟩, ⟨_, rfl, rfl⟩, ⟨_, rfl, rfl⟩,
    ⟨_, rfl, rfl⟩, ⟨_, rfl, rfl⟩, ⟨_, rfl, rfl⟩, ⟨_, rfl, rfl⟩, ⟨_, rfl, rfl⟩⟩⟩

/-- C10: a CPU read of any address in `$4000..=$4013` behaves exactly like a
read of `$4015`: `Nes::read_bus` routes both to `Apu::read_status`, returning
the same status byte, the same updated state, and clearing the
frame-interrupt flag as a side effect (rather than returning 0 like
genuinely unmapped reads). -/
theorem apu_register_range_reads_status (nes : NesState) (addr : Nat)
    (h1 : 0x4000 ≤ addr) (h2 : addr ≤ 0x4013) :
    nes.read_bus addr = nes.read_bus 0x4015 ∧
    ∀ r, nes.read_bus addr = some r → r.snd.apu.frame_interrupted = false := by
  have hu : u16 addr = addr := Nat.mod_eq_of_lt (by omega)
  have harm : nes.read_bus addr =
      some ((nes.apu.read_status).fst, { nes with apu := (nes.apu.read_status).snd }) := by
    simp only [NesState.read_bus, hu]
    rw [if_neg (by omega), if_neg (by omega), if_pos (by omega)]
  constructor
  · rw [harm]
    simp only [NesState.read_bus]
    norm_num [u16]
  · intro r hr
    rw [harm] at hr
    cases hr
    simp [Apu.read_status]

/-- Witness for the C10 theorem at `addr = 0x4000` on the default machine. -/
theorem apu_register_range_reads_status_witness :
    NesState.mk0.read_bus 0x4000 = NesState.mk0.read_bus 0x4015 ∧
    ∀ r, NesState.mk0.read_bus 0x4000 = some r → r.snd.apu.frame_interrupted = false :=
  apu_register_range_reads_status NesState.mk0 0x4000 (by norm_num) (by norm_num)

set_option maxRecDepth 40000 in
/-- C2: the claim (a `$4014` write copies 256 bytes into primary OAM and
advances the cycle counter by 513 even / 514 odd) fails on the code.  From the
spec scenario (even cycles, page `0x02`): the loop `start..(start + 0xFF)`
performs only 255 iterations, each write lands in
`write_ppu_register(to_ppu_addr($2004), _) = write_ppu_register(4, _)`, which
matches no register arm and is a no-op — so the machine is left COMPLETELY
unchanged except for the cycle counter, which advances by 512 (and by 511
from an odd start). -/
theorem oam_dma_copies_nothing :
    nesDma.writeCpu 0x4014 0x02 = some (addCycles nesDma 512) ∧
    (addCycles nesDma 512).oam.primary 0 = 0xAA ∧
    nesDma.wram 0x0200 = 0x07 ∧
    ({ nesDma with cpu := { nesDma.cpu with cycles := 1 } }).writeCpu 0x4014 0x02 =
      some (addCycles { nesDma with cpu := { nesDma.cpu with cycles := 1 } } 511) := by
  refine ⟨rfl, rfl, rfl, rfl⟩

/-- C1: the claim (`step_frame` terminates from every state reachable after
`load_rom`) fails on the code.  `Nes::step` branches on `cpu.interrupted()`
— the `I` flag — not on the latch being non-empty: in any state with `I` set
and an empty latch, `handle_interrupt` does nothing and reports 0 cycles, so
`step` is the identity for EVERY choice of the cpu/apu/ppu subsystem steps,
and the `step_frame` loop never exits (no fuel suffices).  Such a state is
reached immediately after `load_rom`: `clear()` leaves exactly RESET in the
latch, and handling RESET empties the latch and keeps `I` set (third part),
after which no instruction can ever run to change anything. -/
theorem step_frame_never_terminates (nes : NesState)
    (hI : Cpu.interrupted nes.cpu = true) (h0 : nes.interrupt = 0) :
    (∀ f g h, stepWith f g h nes = some nes) ∧
    (∀ f g h fuel, step_frame (stepWith f g h) fuel nes = none) ∧
    (∀ m : NesState, m.interrupt = I_RESET →
      ∃ r, handle_interrupt m = some r ∧ r.fst.interrupt = 0 ∧
        Cpu.interrupted r.fst.cpu = true) := by
  have hempty : handle_interrupt nes = some (nes, 0) := by
    have hg : interrupt_get 0 = 0 := rfl
    simp [handle_interrupt, h0, hg, I_RESET, I_NMI, I_IRQ, I_BRK]
  have hstep : ∀ f g h, stepWith f g h nes = some nes := by
    intro f g h
    simp only [stepWith, hI, if_pos, hempty, Option.map_some']
    simp [apu_steps, u128]
  refine ⟨hstep, ?_, ?_⟩
  · intro f g h fuel
    simp only [step_frame]
    induction fuel with
    | zero => rfl
    | succ fuel ih =>
        simp only [step_frame_go, if_pos rfl, hstep, Option.some_bind]
        exact ih
  · intro m hm
    have hcur : interrupt_get m.interrupt = I_RESET := by
      rw [hm]; decide
    have hrst : m.reset = some
        { addCycles m 7 with cpu := { (addCycles m 7).cpu with
            pc := u8 (m.mapperRead 0xFFFC) ||| u16 (u8 (m.mapperRead 0xFFFD) <<< 8),
            p := bitsInsert m.cpu.p P_I,
            s := u8 (m.cpu.s + 253) } } := by
      simp only [NesState.reset, NesState.read_word]
      rw [readCpu_mapper _ _ (by norm_num) (by norm_num)]
      simp only [Option.some_bind]
      rw [show u16 (0xFFFC + 1) = 0xFFFD from rfl,
        readCpu_mapper _ _ (by norm_num) (by norm_num)]
      simp only [Option.map_some', Option.some_bind, addCycles, u128]
      norm_num [Nat.add_mod_right, Nat.mod_mod_of_dvd]
    obtain ⟨st, hst, hsti, hstp⟩ :
        ∃ st, m.reset = some st ∧ st.interrupt = m.interrupt ∧
          st.cpu.p = bitsInsert m.cpu.p P_I := ⟨_, hrst, rfl, rfl⟩
    refine ⟨({ st with interrupt := bitsRemove m.interrupt I_RESET },
      if m.cpu.cycles ≤ st.cpu.cycles then st.cpu.cycles - m.cpu.cycles
      else U128_MAX - m.cpu.cycles + st.cpu.cycles), ?_, ?_, ?_⟩
    · simp [handle_interrupt, hcur, hst, hsti]
    · simp [hm, I_RESET, bitsRemove]
      decide
    · simp only [Cpu.interrupted, hstp, bitsInsert]
      exact bitsContain_lor_self _ _

theorem addCycles_cpu_s (σ : NesState) (k : Nat) : (addCycles σ k).cpu.s = σ.cpu.s := rfl

theorem addCycles_cpu_p (σ : NesState) (k : Nat) : (addCycles σ k).cpu.p = σ.cpu.p := rfl

theorem addCycles_cpu_pc (σ : NesState) (k : Nat) : (addCycles σ k).cpu.pc = σ.cpu.pc := rfl

theorem addCycles_wram (σ : NesState) (k : Nat) : (addCycles σ k).wram = σ.wram := rfl

theorem addCycles_interrupt (σ : NesState) (k : Nat) :
    (addCycles σ k).interrupt = σ.interrupt := rfl

theorem addCycles_mapperRead (σ : NesState) (k : Nat) :
    (addCycles σ k).mapperRead = σ.mapperRead := rfl

/-- Projection form of `push_stack_eq`: the pushed machine keeps every
component except the decremented `S`, the byte written at `$0100 + S`, and the
bus cycle. -/
theorem push_stack_spec (σ : NesState) (v : Nat) (hs : σ.cpu.s < 256) :
    ∃ σ', σ.push_stack v = some σ' ∧
      σ'.cpu.s = (σ.cpu.s + 255) % 256 ∧
      σ'.cpu.p = σ.cpu.p ∧
      σ'.cpu.pc = σ.cpu.pc ∧
      σ'.wram = Function.update σ.wram (σ.cpu.s + 0x100) (v % 256) ∧
      σ'.interrupt = σ.interrupt ∧
      σ'.mapperRead = σ.mapperRead :=
  ⟨_, push_stack_eq σ v hs, rfl, rfl, rfl, rfl, rfl, rfl⟩

/-- Projection form of `pull_stack_eq`: a pull increments `S` (wrapping),
reads the byte at the new `$0100 + S`, and leaves memory untouched. -/
theorem pull_stack_spec (σ : NesState) :
    ∃ v σ', σ.pull_stack = some (v, σ') ∧
      v = σ.wram ((σ.cpu.s + 1) % 256 + 0x100) % 256 ∧
      σ'.cpu.s = (σ.cpu.s + 1) % 256 ∧
      σ'.cpu.p = σ.cpu.p ∧
      σ'.wram = σ.wram ∧
      σ'.interrupt = σ.interrupt ∧
      σ'.mapperRead = σ.mapperRead :=
  ⟨_, _, pull_stack_eq σ, rfl, rfl, rfl, rfl, rfl, rfl⟩

theorem interrupt_request_spec (m : NesState) (hs : m.cpu.s < 256) :
    ∃ r, m.interrupt_request = some r ∧
      r.cpu.pc = u8 (m.mapperRead 0xFFFE) ||| u16 (u8 (m.mapperRead 0xFFFF) <<< 8) ∧
      bitsContain r.cpu.p P_I = true ∧
      r.cpu.s = (m.cpu.s + 253) % 256 ∧
      r.interrupt = m.interrupt ∧
      r.wram (m.cpu.s + 0x100) = u8 (u16 m.cpu.pc >>> 8) ∧
      r.wram ((m.cpu.s + 255) % 256 + 0x100) = u16 m.cpu.pc % 256 ∧
      r.wram ((m.cpu.s + 254) % 256 + 0x100) = u8 (m.cpu.p ||| P_INTERRUPTED_B) := by
  have hmm : ∀ x : Nat, x % 256 % 256 = x % 256 := fun x => Nat.mod_mod_of_dvd x dvd_rfl
  obtain ⟨σ1, h1, s1, p1, pc1, w1, i1, mr1⟩ :=
    push_stack_spec (addCycles m 2) (u8 (u16 (addCycles m 2).cpu.pc >>> 8))
      (show (addCycles m 2).cpu.s < 256 from hs)
  obtain ⟨σ2, h2, s2, p2, pc2, w2, i2, mr2⟩ :=
    push_stack_spec σ1 (u16 (addCycles m 2).cpu.pc &&& 0xFF)
      (by rw [s1, addCycles_cpu_s]; omega)
  obtain ⟨σ3, h3, s3, p3, pc3, w3, i3, mr3⟩ :=
    push_stack_spec σ2 (σ2.cpu.p ||| P_INTERRUPTED_B)
      (by rw [s2, s1, addCycles_cpu_s]; omega)
  simp only [NesState.interrupt_request, NesState.push_stack_word, h1, Option.some_bind,
    h2, h3, NesState.read_word]
  rw [readCpu_mapper _ _ (by norm_num) (by norm_num)]
  simp only [Option.some_bind]
  rw [show u16 (0xFFFE + 1) = 0xFFFF from rfl,
    readCpu_mapper _ _ (by norm_num) (by norm_num)]
  simp only [Option.map_some', Option.some_bind]
  have hs1 : σ1.cpu.s = (m.cpu.s + 255) % 256 := by rw [s1, addCycles_cpu_s]
  have hs2 : σ2.cpu.s = ((m.cpu.s + 255) % 256 + 255) % 256 := by rw [s2, hs1]
  have hmr : σ3.mapperRead = m.mapperRead := by
    rw [mr3, mr2, mr1, addCycles_mapperRead]
  have hw : σ3.wram = Function.update (Function.update
      (Function.update m.wram (m.cpu.s + 0x100) (u8 (u16 m.cpu.pc >>> 8) % 256))
      ((m.cpu.s + 255) % 256 + 0x100) ((u16 m.cpu.pc &&& 0xFF) % 256))
      (((m.cpu.s + 255) % 256 + 255) % 256 + 0x100) ((σ2.cpu.p ||| P_INTERRUPTED_B) % 256) := by
    rw [w3, hs2, w2, hs1, w1, addCycles_cpu_s, addCycles_wram, addCycles_cpu_pc]
  have hmm2 : ∀ x : Nat, u8 x % 256 = u8 x := fun x => hmm x
  refine ⟨_, rfl, ?_, ?_, ?_, ?_, ?_, ?_, ?_⟩
  · simp [addCycles_mapperRead, hmr]
  · show bitsContain (bitsInsert σ3.cpu.p P_I) P_I = true
    exact bitsContain_lor_self _ _
  · show σ3.cpu.s = (m.cpu.s + 253) % 256
    rw [s3, hs2]
    omega
  · show σ3.interrupt = m.interrupt
    rw [i3, i2, i1, addCycles_interrupt]
  · show σ3.wram (m.cpu.s + 0x100) = u8 (u16 m.cpu.pc >>> 8)
    rw [hw, Function.update_noteq (by omega), Function.update_noteq (by omega),
      Function.update_same, hmm2]
  · show σ3.wram ((m.cpu.s + 255) % 256 + 0x100) = u16 m.cpu.pc % 256
    rw [hw, Function.update_noteq (by omega), Function.update_same]
    have hand : u16 m.cpu.pc &&& 0xFF = u16 m.cpu.pc % 256 := by
      simpa using Nat.and_pow_two_sub_one_eq_mod (u16 m.cpu.pc) 8
    rw [hand, hmm]
  · show σ3.wram ((m.cpu.s + 254) % 256 + 0x100) = u8 (m.cpu.p ||| P_INTERRUPTED_B)
    rw [hw, show ((m.cpu.s + 255) % 256 + 255) % 256 = (m.cpu.s + 254) % 256 by omega,
      Function.update_same, p2, p1, addCycles_cpu_p]
    rfl

/-- C3: the claim (an IRQ at the head of the latch is serviced — push PC,
push status, vector `$FFFE` — if and only if `I` is clear, and stays pending
while `I` is set) fails on the code: `Cpu::interrupted()` returns
`p.contains(Status::I)`, so `handle_interrupt` services a pending IRQ exactly
when `I` is SET (pushing `PC` and `P | INTERRUPTED_B` and loading `PC` from
`$FFFE`, clearing the latch), and with `I` CLEAR it does nothing and leaves
the IRQ pending.  (Moreover `Nes::step` only calls the handler at all when
`I` is set.) -/
theorem irq_gate_inverted (m : NesState) (hm : m.interrupt = I_IRQ)
    (hs : m.cpu.s < 256) :
    (Cpu.interrupted m.cpu = true →
      ∃ r, handle_interrupt m = some r ∧
        r.fst.interrupt = 0 ∧
        r.fst.cpu.pc = u8 (m.mapperRead 0xFFFE) ||| u16 (u8 (m.mapperRead 0xFFFF) <<< 8) ∧
        r.fst.cpu.s = (m.cpu.s + 253) % 256 ∧
        r.fst.wram (m.cpu.s + 0x100) = u8 (u16 m.cpu.pc >>> 8) ∧
        r.fst.wram ((m.cpu.s + 255) % 256 + 0x100) = u16 m.cpu.pc % 256 ∧
        r.fst.wram ((m.cpu.s + 254) % 256 + 0x100) = u8 (m.cpu.p ||| P_INTERRUPTED_B)) ∧
    (Cpu.interrupted m.cpu = false → handle_interrupt m = some (m, 0)) := by
  have hcur : interrupt_get m.interrupt = I_IRQ := by rw [hm]; decide
  constructor
  · intro hint
    obtain ⟨r, hr, hpc, _hp, hsv, hi, w1, w2, w3⟩ := interrupt_request_spec m hs
    refine ⟨({ r with interrupt := bitsRemove m.interrupt I_IRQ },
      if m.cpu.cycles ≤ r.cpu.cycles then r.cpu.cycles - m.cpu.cycles
      else U128_MAX - m.cpu.cycles + r.cpu.cycles), ?_, ?_, hpc, hsv, w1, w2, w3⟩
    · simp [handle_interrupt, hcur, I_IRQ, I_RESET, I_NMI, hint, hr, hi]
    · simp [hm, I_IRQ, bitsRemove]
      decide
  · intro hint
    simp [handle_interrupt, hcur, I_IRQ, I_RESET, I_NMI, I_BRK, hint]

/-- Witness for the C3 theorem on the concrete pending-IRQ machine `nesIrq`
(`I` set), and on the same machine with `I` cleared. -/
theorem irq_gate_inverted_witness :
    ((Cpu.interrupted nesIrq.cpu = true →
      ∃ r, handle_interrupt nesIrq = some r ∧
        r.fst.interrupt = 0 ∧
        r.fst.cpu.pc =
          u8 (nesIrq.mapperRead 0xFFFE) ||| u16 (u8 (nesIrq.mapperRead 0xFFFF) <<< 8) ∧
        r.fst.cpu.s = (nesIrq.cpu.s + 253) % 256 ∧
        r.fst.wram (nesIrq.cpu.s + 0x100) = u8 (u16 nesIrq.cpu.pc >>> 8) ∧
        r.fst.wram ((nesIrq.cpu.s + 255) % 256 + 0x100) = u16 nesIrq.cpu.pc % 256 ∧
        r.fst.wram ((nesIrq.cpu.s + 254) % 256 + 0x100) =
          u8 (nesIrq.cpu.p ||| P_INTERRUPTED_B)) ∧
    (Cpu.interrupted nesIrq.cpu = false → handle_interrupt nesIrq = some (nesIrq, 0))) :=
  irq_gate_inverted nesIrq (by decide) (by decide)

/-! ## Stack round-trip: pointer arithmetic in `ZMod 256` -/

theorem zcast_mod256 (a : Nat) : ((a % 256 : Nat) : ZMod 256) = (a : ZMod 256) :=
  ZMod.natCast_mod a 256

theorem zcast_inj256 {a b : Nat} (ha : a < 256) (hb : b < 256)
    (h : (a : ZMod 256) = (b : ZMod 256)) : a = b := by
  have hv := congrArg ZMod.val h
  rwa [ZMod.val_natCast_of_lt ha, ZMod.val_natCast_of_lt hb] at hv

theorem zcast_ne_zero256 {k : Nat} (h0 : 0 < k) (h1 : k < 256) :
    ((k : Nat) : ZMod 256) ≠ 0 := by
  intro h
  rw [ZMod.natCast_zmod_eq_zero_iff_dvd] at h
  exact absurd (Nat.le_of_dvd h0 h) (by omega)

theorem zcast_dec (s : Nat) :
    (((s + 255) % 256 : Nat) : ZMod 256) = (s : ZMod 256) - 1 := by
  rw [zcast_mod256]
  push_cast
  have h255 : ((255 : Nat) : ZMod 256) = -1 := by decide
  rw [show ((255 : ZMod 256)) = -1 by decide]
  ring

theorem zcast_inc (s : Nat) :
    (((s + 1) % 256 : Nat) : ZMod 256) = (s : ZMod 256) + 1 := by
  rw [zcast_mod256]
  push_cast
  ring

theorem ne_of_zcast_ne {a b : Nat} (h : (a : ZMod 256) ≠ (b : ZMod 256)) : a ≠ b :=
  fun he => h (by rw [he])

theorem sizeSum_cons (it : StackItem) (rest : List StackItem) :
    sizeSum (it :: rest) = it.size + sizeSum rest := by
  simp [sizeSum]

theorem pushItems_nil (σ : NesState) : pushItems σ [] = some σ := rfl

theorem pushItems_cons (σ : NesState) (it : StackItem) (rest : List StackItem) :
    pushItems σ (it :: rest) = (pushItem σ it).bind fun σ0 => pushItems σ0 rest := by
  cases h : pushItem σ it <;> simp [pushItems, List.foldlM_cons, h]

theorem pullItems_single (σ : NesState) (k : Bool) :
    pullItems σ [k] = (pullItem σ k).map fun r => ([r.fst], r.snd) := by
  cases h : pullItem σ k <;> simp [pullItems, h]

theorem pullItems_append (ks1 ks2 : List Bool) : ∀ σ : NesState,
    pullItems σ (ks1 ++ ks2) = (pullItems σ ks1).bind fun r =>
      (pullItems r.snd ks2).map fun r2 => (r.fst ++ r2.fst, r2.snd) := by
  induction ks1 with
  | nil =>
      intro σ
      cases h : pullItems σ ks2 <;> simp [pullItems, h]
  | cons k ks ih =>
      intro σ
      simp only [List.cons_append, pullItems]
      cases h : pullItem σ k with
      | none => simp
      | some r =>
          simp only [Option.some_bind, List.append_eq]
          rw [ih r.snd]
          cases h2 : pullItems r.snd ks with
          | none => simp
          | some r2 =>
              cases h3 : pullItems r2.snd ks2 <;> simp [h3]

/-- Characterization of a push sequence: it succeeds from any in-range stack
pointer, moves the pointer down by the byte footprint (mod 256), stays inside
the `$0100..=$01FF` page, and leaves untouched every stack slot that is not
among the `sizeSum` slots below the starting pointer. -/
theorem pushItems_spec (items : List StackItem) :
    ∀ σ : NesState, σ.cpu.s < 256 →
    ∃ σp, pushItems σ items = some σp ∧
      σp.cpu.s < 256 ∧
      ((σp.cpu.s : ZMod 256) = (σ.cpu.s : ZMod 256) - (sizeSum items : ZMod 256)) ∧
      σp.mapperRead = σ.mapperRead ∧
      (∀ a : Nat, ¬(0x100 ≤ a ∧ a ≤ 0x1FF) → σp.wram a = σ.wram a) ∧
      (∀ j : Nat, j < 256 →
        (∀ k : Nat, k < sizeSum items →
          (j : ZMod 256) ≠ (σ.cpu.s : ZMod 256) - (k : ZMod 256)) →
        σp.wram (j + 0x100) = σ.wram (j + 0x100)) := by
  induction items with
  | nil =>
      intro σ hs
      exact ⟨σ, pushItems_nil σ, hs, by simp [sizeSum], rfl,
        fun a _ => rfl, fun j _ _ => rfl⟩
  | cons it rest ih =>
      intro σ hs
      cases it with
      | byte b =>
          obtain ⟨σ0, h0, s0, p0, pc0, w0, i0, mr0⟩ := push_stack_spec σ b hs
          have hs0 : σ0.cpu.s < 256 := by rw [s0]; omega
          have hcast0 : (σ0.cpu.s : ZMod 256) = (σ.cpu.s : ZMod 256) - 1 := by
            rw [s0]; exact zcast_dec _
          obtain ⟨σp, hp, hsp, hcast, hmr, hout, hin⟩ := ih σ0 hs0
          refine ⟨σp, ?_, hsp, ?_, by rw [hmr, mr0], ?_, ?_⟩
          · rw [pushItems_cons]
            simp only [pushItem, h0, Option.some_bind, hp]
          · rw [hcast, hcast0, sizeSum_cons]
            show _ = _ - ((1 + sizeSum rest : Nat) : ZMod 256)
            push_cast
            ring
          · intro a ha
            rw [hout a ha, w0, Function.update_noteq (by omega)]
          · intro j hj hcond
            have h1 : σp.wram (j + 0x100) = σ0.wram (j + 0x100) := by
              refine hin j hj fun k hk => ?_
              rw [hcast0]
              intro he
              refine hcond (k + 1) (by rw [sizeSum_cons]; simp [StackItem.size]; omega) ?_
              rw [he]
              push_cast
              ring
            rw [h1, w0, Function.update_noteq ?_]
            have hne : (j : ZMod 256) ≠ (σ.cpu.s : ZMod 256) := by
              have := hcond 0 (by rw [sizeSum_cons]; simp [StackItem.size])
              simpa using this
            have := ne_of_zcast_ne hne
            omega
      | word w =>
          obtain ⟨σa, ha, sa, pa, pca, wa, ia, mra⟩ :=
            push_stack_spec σ (u8 (u16 w >>> 8)) hs
          have hsa : σa.cpu.s < 256 := by rw [sa]; omega
          obtain ⟨σ0, h0, s0, p0, pc0, w0, i0, mr0⟩ :=
            push_stack_spec σa (u16 w &&& 0xFF) hsa
          have hs0 : σ0.cpu.s < 256 := by rw [s0]; omega
          have hcasta : (σa.cpu.s : ZMod 256) = (σ.cpu.s : ZMod 256) - 1 := by
            rw [sa]; exact zcast_dec _
          have hcast0 : (σ0.cpu.s : ZMod 256) = (σ.cpu.s : ZMod 256) - 2 := by
            rw [s0, zcast_dec, hcasta]; ring
          obtain ⟨σp, hp, hsp, hcast, hmr, hout, hin⟩ := ih σ0 hs0
          refine ⟨σp, ?_, hsp, ?_, by rw [hmr, mr0, mra], ?_, ?_⟩
          · rw [pushItems_cons]
            simp only [pushItem, NesState.push_stack_word, ha, Option.some_bind, h0, hp]
          · rw [hcast, hcast0, sizeSum_cons]
            show _ = _ - ((2 + sizeSum rest : Nat) : ZMod 256)
            push_cast
            ring
          · intro a hA
            rw [hout a hA, w0, Function.update_noteq (by rw [sa]; omega),
              wa, Function.update_noteq (by omega)]
          · intro j hj hcond
            have hsizes : sizeSum (StackItem.word w :: rest) = 2 + sizeSum rest := by
              rw [sizeSum_cons]; simp [StackItem.size]
            have h1 : σp.wram (j + 0x100) = σ0.wram (j + 0x100) := by
              refine hin j hj fun k hk => ?_
              rw [hcast0]
              intro he
              refine hcond (k + 2) (by omega) ?_
              rw [he]
              push_cast
              ring
            have hneA : j ≠ σa.cpu.s := by
              refine ne_of_zcast_ne ?_
              rw [hcasta]
              have := hcond 1 (by omega)
              simpa using this
            have hneS : j ≠ σ.cpu.s := by
              refine ne_of_zcast_ne ?_
              have := hcond 0 (by omega)
              simpa using this
            rw [h1, w0, Function.update_noteq (by omega), wa,
              Function.update_noteq (by omega)]

/-- Pulling back a pushed sequence (in reverse kind order) returns exactly the
pushed items and restores the stack pointer, provided the sequence fits in the
256-byte stack page. -/
theorem pullItems_of_pushItems (items : List StackItem) :
    ∀ σ σp : NesState, σ.cpu.s < 256 → (∀ i ∈ items, i.wf) → sizeSum items ≤ 256 →
    pushItems σ items = some σp →
    ∃ res : List StackItem × NesState,
      pullItems σp (items.reverse.map StackItem.isWord) = some res ∧
      res.fst = items.reverse ∧
      res.snd.cpu.s = σ.cpu.s ∧ res.snd.cpu.s < 256 ∧
      res.snd.wram = σp.wram := by
  induction items with
  | nil =>
      intro σ σp hs _ _ hp
      rw [pushItems_nil] at hp
      cases hp
      exact ⟨([], σ), rfl, rfl, rfl, hs, rfl⟩
  | cons it rest ih =>
      intro σ σp hs hwf hlen hp
      rw [pushItems_cons] at hp
      have hwfit : it.wf := hwf it (by simp)
      have hwfrest : ∀ i ∈ rest, i.wf := fun i hi => hwf i (by simp [hi])
      cases it with
      | byte b =>
          obtain ⟨σ0, h0, s0, p0, pc0, w0, i0, mr0⟩ := push_stack_spec σ b hs
          have hs0 : σ0.cpu.s < 256 := by rw [s0]; omega
          rw [show pushItem σ (StackItem.byte b) = some σ0 from h0, Option.some_bind] at hp
          have hlenrest : sizeSum rest ≤ 256 := by
            rw [sizeSum_cons] at hlen; omega
          obtain ⟨res1, hpull1, hfst1, hsnd1, hsnd1lt, hw1⟩ :=
            ih σ0 σp hs0 hwfrest hlenrest hp
          obtain ⟨σp2, hp2, hd1, hd2, hd3, hd4, hin⟩ := pushItems_spec rest σ0 hs0
          have hpp : σp2 = σp := by rw [hp2] at hp; exact Option.some.inj hp
          rw [hpp] at hin
          have hkinds : (StackItem.byte b :: rest).reverse.map StackItem.isWord =
              rest.reverse.map StackItem.isWord ++ [(StackItem.byte b).isWord] := by
            simp
          rw [hkinds, pullItems_append, hpull1, Option.some_bind, pullItems_single]
          obtain ⟨v, σf, hpl, hv, sps, spp, spw, spi, spm⟩ := pull_stack_spec res1.snd
          have hsstep : (res1.snd.cpu.s + 1) % 256 = σ.cpu.s := by
            rw [hsnd1, s0]; omega
          -- the slot holding b survived the pushes of the remaining items
          have hslot : σp.wram (σ.cpu.s + 0x100) = b := by
            have hpres : σp.wram (σ.cpu.s + 0x100) = σ0.wram (σ.cpu.s + 0x100) := by
              refine hin σ.cpu.s hs fun k hk => ?_
              rw [s0, zcast_dec]
              intro he
              have hk1 : k + 1 < 256 := by
                rw [sizeSum_cons] at hlen
                simp [StackItem.size] at hlen
                omega
              refine zcast_ne_zero256 (k := k + 1) (by omega) hk1 ?_
              push_cast
              linear_combination he
            rw [hpres, w0, Function.update_same]
            have hb : b < 256 := hwfit
            omega
          rw [show pullItem res1.snd (StackItem.byte b).isWord =
              (res1.snd.pull_stack).map (fun r => (StackItem.byte r.fst, r.snd)) from rfl,
            hpl]
          simp only [Option.map_some']
          refine ⟨_, rfl, ?_, ?_, ?_, ?_⟩
          · have hvb : v = b := by
              rw [hv, hsstep, hw1, hslot]
              exact Nat.mod_eq_of_lt hwfit
            show res1.fst ++ [StackItem.byte v] = _
            rw [hfst1, hvb]
            simp
          · show σf.cpu.s = σ.cpu.s
            rw [sps, hsstep]
          · show σf.cpu.s < 256
            rw [sps, hsstep]; exact hs
          · show σf.wram = σp.wram
            rw [spw, hw1]
      | word w =>
          obtain ⟨σa, ha, sa, pa, pca, wa, ia, mra⟩ :=
            push_stack_spec σ (u8 (u16 w >>> 8)) hs
          have hsa : σa.cpu.s < 256 := by rw [sa]; omega
          obtain ⟨σ0, h0, s0, p0, pc0, w0, i0, mr0⟩ :=
            push_stack_spec σa (u16 w &&& 0xFF) hsa
          have hs0 : σ0.cpu.s < 256 := by rw [s0]; omega
          have hpi : pushItem σ (StackItem.word w) = some σ0 := by
            simp only [pushItem, NesState.push_stack_word, ha, Option.some_bind, h0]
          rw [hpi, Option.some_bind] at hp
          have hlenrest : sizeSum rest ≤ 254 := by
            rw [sizeSum_cons] at hlen
            simp [StackItem.size] at hlen
            omega
          obtain ⟨res1, hpull1, hfst1, hsnd1, hsnd1lt, hw1⟩ :=
            ih σ0 σp hs0 hwfrest (by omega) hp
          obtain ⟨σp2, hp2, hd1, hd2, hd3, hd4, hin⟩ := pushItems_spec rest σ0 hs0
          have hpp : σp2 = σp := by rw [hp2] at hp; exact Option.some.inj hp
          rw [hpp] at hin
          have hw65536 : w < 65536 := hwfit
          -- both slots of the word survived the pushes of the remaining items
          have hcast0 : (σ0.cpu.s : ZMod 256) = (σ.cpu.s : ZMod 256) - 2 := by
            rw [s0, zcast_dec, sa, zcast_dec]; ring
          have hsurvive : ∀ j : Nat, j < 256 →
              ((j : ZMod 256) = (σ.cpu.s : ZMod 256) ∨
               (j : ZMod 256) = (σ.cpu.s : ZMod 256) - 1) →
              σp.wram (j + 0x100) = σ0.wram (j + 0x100) := by
            intro j hj hor
            refine hin j hj fun k hk => ?_
            rw [hcast0]
            intro he
            rcases hor with h1 | h1
            · rw [h1] at he
              refine zcast_ne_zero256 (k := k + 2) (by omega) (by omega) ?_
              push_cast
              linear_combination he
            · rw [h1] at he
              refine zcast_ne_zero256 (k := k + 1) (by omega) (by omega) ?_
              push_cast
              linear_combination he
          have hw16 : u16 w = w := Nat.mod_eq_of_lt hw65536
          have hhi : u8 (u16 w >>> 8) = w / 256 := by
            rw [hw16, Nat.shiftRight_eq_div_pow]
            show (w / 2 ^ 8) % 256 = w / 256
            norm_num
            omega
          have hand : u16 w &&& 0xFF = w % 256 := by
            rw [hw16]
            simpa using Nat.and_pow_two_sub_one_eq_mod w 8
          have hslotHi : σp.wram (σ.cpu.s + 0x100) = w / 256 := by
            rw [hsurvive σ.cpu.s hs (Or.inl rfl), w0,
              Function.update_noteq (by rw [sa]; omega), wa, Function.update_same, hhi]
            omega
          have hslotLo : σp.wram ((σ.cpu.s + 255) % 256 + 0x100) = w % 256 := by
            rw [hsurvive _ (by omega) (Or.inr (zcast_dec _)), w0, sa,
              Function.update_same, hand]
            omega
          have hkinds : (StackItem.word w :: rest).reverse.map StackItem.isWord =
              rest.reverse.map StackItem.isWord ++ [(StackItem.word w).isWord] := by
            simp
          rw [hkinds, pullItems_append, hpull1, Option.some_bind, pullItems_single]
          obtain ⟨v1, σf1, hpl1, hv1, sps1, spp1, spw1, spi1, spm1⟩ :=
            pull_stack_spec res1.snd
          have hstep1 : (res1.snd.cpu.s + 1) % 256 = (σ.cpu.s + 255) % 256 := by
            rw [hsnd1, s0, sa]; omega
          have hv1b : v1 = w % 256 := by
            rw [hv1, hstep1, hw1, hslotLo]
            omega
          obtain ⟨v2, σf2, hpl2, hv2, sps2, spp2, spw2, spi2, spm2⟩ :=
            pull_stack_spec σf1
          have hstep2 : (σf1.cpu.s + 1) % 256 = σ.cpu.s := by
            rw [sps1, hstep1]; omega
          have hv2b : v2 = w / 256 := by
            rw [hv2, hstep2, spw1, hw1, hslotHi]
            omega
          have hword : res1.snd.pull_stack_word = some (u16 (v2 <<< 8) ||| v1, σf2) := by
            simp only [NesState.pull_stack_word, hpl1, Option.some_bind, hpl2,
              Option.map_some']
          have hcomb : u16 (v2 <<< 8) ||| v1 = w := by
            rw [hv1b, hv2b, Nat.shiftLeft_eq]
            have h2 : w / 256 * 2 ^ 8 = 2 ^ 8 * (w / 256) := by ring
            rw [h2, u16, Nat.mod_eq_of_lt (by norm_num; omega),
              ← Nat.mul_add_lt_is_or (by norm_num; omega : w % 256 < 2 ^ 8) (w / 256)]
            rw [show (2 : Nat) ^ 8 = 256 from rfl]
            omega
          rw [show pullItem res1.snd (StackItem.word w).isWord =
              (res1.snd.pull_stack_word).map (fun r => (StackItem.word r.fst, r.snd)) from rfl,
            hword]
          simp only [Option.map_some']
          refine ⟨_, rfl, ?_, ?_, ?_, ?_⟩
          · show res1.fst ++ [StackItem.word (u16 (v2 <<< 8) ||| v1)] = _
            rw [hfst1, hcomb]
            simp
          · show σf2.cpu.s = σ.cpu.s
            rw [sps2, hstep2]
          · show σf2.cpu.s < 256
            rw [sps2, hstep2]; exact hs
          · show σf2.wram = σp.wram
            rw [spw2, spw1, hw1]

/-- Witness for the C8 theorem on the default machine. -/
theorem palette_mirror_aliases_witness :
    (NesState.mk0.read_ppu 0x3F10 = NesState.mk0.read_ppu 0x3F00) ∧
    (NesState.mk0.read_ppu 0x3F14 = NesState.mk0.read_ppu 0x3F04) ∧
    (NesState.mk0.read_ppu 0x3F18 = NesState.mk0.read_ppu 0x3F08) ∧
    (NesState.mk0.read_ppu 0x3F1C = NesState.mk0.read_ppu 0x3F0C) ∧
    ∀ v : Nat,
      (∃ n, NesState.mk0.write_ppu 0x3F10 v = some n ∧
        n.read_ppu 0x3F10 = n.read_ppu 0x3F00) ∧
      (∃ n, NesState.mk0.write_ppu 0x3F00 v = some n ∧
        n.read_ppu 0x3F10 = n.read_ppu 0x3F00) ∧
      (∃ n, NesState.mk0.write_ppu 0x3F14 v = some n ∧
        n.read_ppu 0x3F14 = n.read_ppu 0x3F04) ∧
      (∃ n, NesState.mk0.write_ppu 0x3F04 v = some n ∧
        n.read_ppu 0x3F14 = n.read_ppu 0x3F04) ∧
      (∃ n, NesState.mk0.write_ppu 0x3F18 v = some n ∧
        n.read_ppu 0x3F18 = n.read_ppu 0x3F08) ∧
      (∃ n, NesState.mk0.write_ppu 0x3F08 v = some n ∧
        n.read_ppu 0x3F18 = n.read_ppu 0x3F08) ∧
      (∃ n, NesState.mk0.write_ppu 0x3F1C v = some n ∧
        n.read_ppu 0x3F1C = n.read_ppu 0x3F0C) ∧
      (∃ n, NesState.mk0.write_ppu 0x3F0C v = some n ∧
        n.read_ppu 0x3F1C = n.read_ppu 0x3F0C) :=
  palette_mirror_aliases NesState.mk0

/-- C9 (amended): for every sequence of byte and word pushes totalling AT MOST
256 bytes, pulling in reverse order returns exactly the pushed values, the
stack pointer `S` returns to its pre-push value (including when `S` wraps
below `0x00`), and no memory outside the stack page `$0100..=$01FF` is
touched.  The bound is necessary: see the overflow counterexample, where the
257th pushed byte overwrites the first. -/
theorem stack_roundtrip (items : List StackItem) (σ : NesState)
    (hs : σ.cpu.s < 256) (hwf : ∀ i ∈ items, i.wf) (hlen : sizeSum items ≤ 256) :
    ∃ σp res, pushItems σ items = some σp ∧
      pullItems σp (items.reverse.map StackItem.isWord) = some res ∧
      res.fst = items.reverse ∧
      res.snd.cpu.s = σ.cpu.s ∧
      (∀ a : Nat, ¬(0x100 ≤ a ∧ a ≤ 0x1FF) → res.snd.wram a = σ.wram a) := by
  obtain ⟨σp, hp, hx1, hx2, hx3, hout, hx4⟩ := pushItems_spec items σ hs
  obtain ⟨res, hpull, hfst, hsnd, hy1, hw⟩ :=
    pullItems_of_pushItems items σ σp hs hwf hlen hp
  exact ⟨σp, res, hp, hpull, hfst, hsnd, fun a ha => by rw [hw, hout a ha]⟩

/-- Witness for the C9 theorem: push the byte 7 and the word `0x1234` on the
power-up machine and pull them back. -/
theorem stack_roundtrip_witness :
    ∃ σp res,
      pushItems nesStack [StackItem.byte 7, StackItem.word 0x1234] = some σp ∧
      pullItems σp
        (([StackItem.byte 7, StackItem.word 0x1234]).reverse.map StackItem.isWord) =
        some res ∧
      res.fst = ([StackItem.byte 7, StackItem.word 0x1234]).reverse ∧
      res.snd.cpu.s = nesStack.cpu.s ∧
      (∀ a : Nat, ¬(0x100 ≤ a ∧ a ≤ 0x1FF) → res.snd.wram a = nesStack.wram a) :=
  stack_roundtrip [StackItem.byte 7, StackItem.word 0x1234] nesStack
    (by decide) (by decide) (by decide)

/-- C9 counterexample to the claim as stated (with no bound on the sequence):
pushing 257 bytes — a 1 and then 256 zeros — wraps the stack pointer all the
way around, so the 257th byte lands on top of the first; pulling 257 times in
reverse order does NOT return the pushed sequence (the final pull yields 0,
not 1). -/
theorem stack_roundtrip_overflow_counterexample :
    ((pushItems nesStack items257).bind fun σp =>
      (pullItems σp (items257.reverse.map StackItem.isWord)).map fun r => r.fst) ≠
      some items257.reverse := by
  decide

/-- Witness for the C1 theorem at the concrete stuck state (power-up `P =
0x34`, empty latch). -/
theorem step_frame_never_terminates_witness :
    (∀ f g h, stepWith f g h nesStuck = some nesStuck) ∧
    (∀ f g h fuel, step_frame (stepWith f g h) fuel nesStuck = none) ∧
    (∀ m : NesState, m.interrupt = I_RESET →
      ∃ r, handle_interrupt m = some r ∧ r.fst.interrupt = 0 ∧
        Cpu.interrupted r.fst.cpu = true) :=
  step_frame_never_terminates nesStuck (by decide) (by decide)

end Korones
